import Mathlib

/-!
Verification of the sail build orchestrator (src/main.cpp) against its
specification. The C++ is shallowly embedded: `std::string` becomes
`List Char`, an absolute directory path becomes the reversed list of its
components (deepest component first, `[]` standing for the filesystem root),
the manifest file becomes the list of lines `std::getline` yields, and the
two external toolchain invocations become exit codes supplied as inputs.
-/

namespace Sail

/-- The double-quote character, written via its code point. -/
def dquote : Char := Char.ofNat 34

/-! ## Project locator (src/main.cpp lines 52-67)

A directory is the reversed list of its path components: `["b", "a"]` is
`/a/b`, `[]` is the filesystem root; `parent_path` is `List.tail`.
`fs p = true` models `std::filesystem::exists (p / "Sail.toml")`. -/

/-- The root-finding loop of `build_project`: `while (current_path !=
current_path.root_path())` check for `Sail.toml` in `current_path`, on a hit
stop with that directory, otherwise continue in the parent. The loop guard is
tested before the directory is examined, so the filesystem root `[]` is never
examined. An empty `project_root` after the loop is the NotFound outcome,
modelled as `none`. -/
def locate_root (fs : List String → Bool) : List String → Option (List String)
  | [] => none
  | d :: rest => if fs (d :: rest) then some (d :: rest) else locate_root fs rest

/-! ## Manifest field reader (src/main.cpp lines 77-93) -/

/-- `std::string::find(char)`: the first index at which `c` occurs, `none`
standing for `npos`. -/
def findChar (c : Char) : List Char → Option Nat
  | [] => none
  | a :: l => if a = c then some 0 else (findChar c l).map (· + 1)

/-- `std::string::find(char, pos)`: the first index `≥ s` at which `c`
occurs. -/
def findCharFrom (l : List Char) (c : Char) (s : Nat) : Option Nat :=
  (findChar c (l.drop s)).map (· + s)

/-- `std::string::find(string)`: the first index at which `pat` occurs as a
contiguous substring. -/
def findSubstr (pat : List Char) : List Char → Option Nat
  | [] => if pat.isEmpty then some 0 else none
  | a :: l => if pat.isPrefixOf (a :: l) then some 0 else (findSubstr pat l).map (· + 1)

/-- The marker pattern `name = "` searched for on each line (line 80). -/
def marker : List Char := "name = \"".data

/-- Line 80: `line.find("name = \"") != std::string::npos`. -/
def hasMarker (l : List Char) : Bool := (findSubstr marker l).isSome

/-- Lines 81-84: `start = line.find('"') + 1`, `end = line.find('"', start)`,
result `line.substr(start, end - start)`. When the line has no quote at all
`start` wraps to `0` and the second find also fails, so the line is skipped
either way: both failures collapse to `none`. Note the first find starts at
position 0 of the line, not at the marker. -/
def quotesExtract (l : List Char) : Option (List Char) :=
  match findChar dquote l with
  | none => none
  | some q1 =>
    match findCharFrom l dquote (q1 + 1) with
    | none => none
    | some q2 => some ((l.drop (q1 + 1)).take (q2 - (q1 + 1)))

/-- The scan's treatment of one line (lines 80-87): the line is considered
only when it contains the marker, and it yields a name only when the quote
extraction also finds both quotes. -/
def extractLine (l : List Char) : Option (List Char) :=
  if hasMarker l then quotesExtract l else none

/-- The `while (std::getline(...))` loop (lines 79-88): `project_name` starts
empty and the loop assigns it and breaks at the first line whose marker test
and quote extraction both succeed; a line failing either test is passed
over. The value of `project_name` after the loop. -/
def scanLines : List (List Char) → List Char
  | [] => []
  | l :: rest =>
    match extractLine l with
    | some name => name
    | none => scanLines rest

/-- Lines 77-93: the scan followed by the `project_name.empty()` check (line
90), which reports the missing-field error; `none` is that error. -/
def read_project_name (lines : List (List Char)) : Option (List Char) :=
  if (scanLines lines).isEmpty then none else some (scanLines lines)

/-- The extraction rule as the specification words it: the name is the
substring strictly between the first and second double-quote characters
following the marker occurrence on the line (so the quotes searched for start
at the marker's position, not at the start of the line). -/
def quotesExtractFromMarker (l : List Char) : Option (List Char) :=
  match findSubstr marker l with
  | none => none
  | some m =>
    match findCharFrom l dquote m with
    | none => none
    | some q1 =>
      match findCharFrom l dquote (q1 + 1) with
      | none => none
      | some q2 => some ((l.drop (q1 + 1)).take (q2 - (q1 + 1)))

/-- The manifest the scaffolding writes (`handle_new_command`, lines 260-265,
and `handle_init_command`, lines 305-310), as the lines `std::getline` yields
from it, with project name `x`. -/
def manifestLines (x : List Char) : List (List Char) :=
  ["[project]".data, "name = \"".data ++ x ++ [dquote],
   "version = \"0.1.0\"".data, [], "[dependencies]".data]

/-! ## Build description generator (src/main.cpp lines 112-143)

The filesystem slot for `ProjectRoot/CMakeLists.txt` is modelled as
`Option String`: `some c` when the file exists with content `c`. -/

/-- The `cmake_content` template of lines 114-135, with the five `{}`
placeholders substituted by the project name as `fmt::format` does. -/
def cmake_content (n : String) : String :=
  "cmake_minimum_required(VERSION 3.21)\n\nproject(" ++ n ++ " VERSION 0.1.0 LANGUAGES CXX)\n\nset(CMAKE_CXX_STANDARD 17)\nset(CMAKE_CXX_STANDARD_REQUIRED ON)\n\n" ++ "# Collect all source files\nfile(GLOB_RECURSE SOURCES src/*.cpp src/*.c)\n\n" ++ "# Create executable\nadd_executable(" ++ n ++ " ${SOURCES})\n\n" ++ "# Set output directory based on build type\nset_target_properties(" ++ n ++ " PROPERTIES\n    RUNTIME_OUTPUT_DIRECTORY_DEBUG \"${CMAKE_SOURCE_DIR}/target/debug\"\n    RUNTIME_OUTPUT_DIRECTORY_RELEASE \"${CMAKE_SOURCE_DIR}/target/release\"\n)\n\n" ++ "# Ensure consistent output name across platforms\nset_target_properties(" ++ n ++ " PROPERTIES OUTPUT_NAME \"" ++ n ++ "\")\n"

/-- Lines 112-143: `if (!std::filesystem::exists(cmake_path))` synthesize the
template, otherwise touch nothing. The result is the file's content after the
call. -/
def ensure_build_description (existing : Option String) (project_name : String) :
    Option String :=
  match existing with
  | some c => some c
  | none => some (cmake_content project_name)

/-! ## Artifact path resolver (src/main.cpp lines 21-30)

`std::filesystem::path` is modelled as the list of its components in order,
`operator/` appending one component; the `_WIN32` conditional compilation
becomes the `isWindows` parameter. -/

/-- Lines 21-25: the compile-time executable extension, `".exe"` under
`_WIN32` and empty otherwise. -/
def EXECUTABLE_EXTENSION (isWindows : Bool) : String :=
  if isWindows then ".exe" else ""

/-- Lines 28-30: `target_dir / (project_name + EXECUTABLE_EXTENSION)`. A pure
function of its arguments; no filesystem access occurs. -/
def get_executable_path (isWindows : Bool) (target_dir : List String)
    (project_name : String) : List String :=
  target_dir ++ [project_name ++ EXECUTABLE_EXTENSION isWindows]

/-! ## Path quoter (src/main.cpp lines 33-46) -/

/-- The Unix branch of `quote_path` (lines 37-44): the loop repeatedly finds
the next space from `pos`, inserts a single backslash just before it and
resumes the search two characters further on, so every space becomes
backslash-space and every other character is copied unchanged. -/
def quote_path_unix : List Char → List Char
  | [] => []
  | c :: rest =>
    if c = ' ' then '\\' :: ' ' :: quote_path_unix rest
    else c :: quote_path_unix rest

/-- Lines 33-46: under `_WIN32` the path is wrapped in one pair of double
quotes; otherwise the space-escaping loop runs. -/
def quote_path (isWindows : Bool) (path : List Char) : List Char :=
  if isWindows then dquote :: path ++ [dquote] else quote_path_unix path

/-! ## Toolchain invocation and orchestration tail (src/main.cpp lines 149-177)

The two `std::system` calls are opaque externals; their exit codes are inputs
to the model. Which calls were actually issued is recorded as a trace. -/

/-- One external toolchain invocation issued through `std::system`. -/
inductive Invocation where
  | configure
  | build
deriving DecidableEq, Repr

/-- `EXIT_SUCCESS`. -/
def EXIT_SUCCESS : Int := 0

/-- `EXIT_FAILURE`. -/
def EXIT_FAILURE : Int := 1

/-- Lines 149-177, the tail of `build_project` once the target directory is
set up: run CMake configure; on nonzero exit return `{EXIT_FAILURE, {}}`
without ever issuing the build invocation; otherwise run CMake build; on
nonzero exit return `{EXIT_FAILURE, {}}`; otherwise resolve the executable
path and return it with `EXIT_SUCCESS`. The first component is the trace of
invocations issued, the second the `std::pair<int, path>` the C++ returns
(`{}`, the empty path, is `[]`). -/
def configure_and_build (isWindows : Bool) (target_dir : List String)
    (project_name : String) (configureExit buildExit : Int) :
    List Invocation × Int × List String :=
  if configureExit ≠ 0 then ([Invocation.configure], (EXIT_FAILURE, []))
  else if buildExit ≠ 0 then
    ([Invocation.configure, Invocation.build], (EXIT_FAILURE, []))
  else
    ([Invocation.configure, Invocation.build],
      (EXIT_SUCCESS, get_executable_path isWindows target_dir project_name))

/-! ## Command handlers (src/main.cpp lines 189-238)

Each handler is parameterized by the `(exit code, path)` pair `build_project`
returned, by the filesystem's existence predicate on paths, and (for run) by
the executed program's exit code. -/

/-- Lines 189-213, after the build: a failed build's code is propagated; then
`std::filesystem::exists(executable_path)` is required, a missing artifact
being a hard `EXIT_FAILURE`; otherwise the artifact runs and its exit code is
returned. -/
def handle_run_command (buildResult : Int × List String)
    (fsExists : List String → Bool) (runExit : Int) : Int :=
  if buildResult.1 ≠ EXIT_SUCCESS then buildResult.1
  else if fsExists buildResult.2 = false then EXIT_FAILURE
  else runExit

/-- Lines 216-238, after the build: a failed build's code is propagated; when
the artifact exists the finished message is printed, when it is absent only a
warning is printed (the second component, `true` when the warning fired), and
either way the handler returns `EXIT_SUCCESS`. -/
def handle_build_command (buildResult : Int × List String)
    (fsExists : List String → Bool) : Int × Bool :=
  if buildResult.1 ≠ EXIT_SUCCESS then (buildResult.1, false)
  else if fsExists buildResult.2 = false then (EXIT_SUCCESS, true)
  else (EXIT_SUCCESS, false)

/-! ## Locator lemmas -/

/-- A hit of the locator is a non-root ancestor holding the manifest, and no
ancestor nearer the start (a longer suffix) holds one. -/
lemma locate_root_some (fs : List String → Bool) (p r : List String)
    (h : locate_root fs p = some r) :
    r ≠ [] ∧ fs r = true ∧ r <:+ p ∧
      ∀ q, q <:+ p → r <:+ q → q ≠ r → fs q = false := by
  induction p with
  | nil => simp [locate_root] at h
  | cons d rest ih =>
    by_cases hf : fs (d :: rest) = true
    · rw [locate_root, if_pos hf] at h
      obtain rfl : d :: rest = r := by simpa using h
      refine ⟨List.cons_ne_nil d rest, hf, List.suffix_rfl, ?_⟩
      intro q hq hrq hne
      exact absurd (hq.sublist.eq_of_length
        (Nat.le_antisymm hq.length_le hrq.length_le)) hne
    · rw [Bool.not_eq_true] at hf
      rw [locate_root, if_neg (by simp [hf])] at h
      obtain ⟨h1, h2, h3, h4⟩ := ih h
      refine ⟨h1, h2, h3.trans (List.suffix_cons d rest), ?_⟩
      intro q hq hrq hne
      rcases List.suffix_cons_iff.mp hq with rfl | hq'
      · exact hf
      · exact h4 q hq' hrq hne

/-- When no ancestor other than the filesystem root holds the manifest, the
locator reports NotFound. -/
lemma locate_root_none (fs : List String → Bool) (p : List String)
    (h : ∀ q, q <:+ p → q ≠ [] → fs q = false) :
    locate_root fs p = none := by
  induction p with
  | nil => rfl
  | cons d rest ih =>
    have hf : fs (d :: rest) = false :=
      h (d :: rest) List.suffix_rfl (List.cons_ne_nil d rest)
    rw [locate_root, if_neg (by simp [hf])]
    exact ih fun q hq hne => h q (hq.trans (List.suffix_cons d rest)) hne

/-- The locator misses nothing: when it reports NotFound, no directory on
the chain other than the filesystem root holds the manifest — equivalently, a
manifest anywhere strictly below the root is always found. -/
lemma locate_root_none_forward (fs : List String → Bool) (p : List String)
    (h : locate_root fs p = none) :
    ∀ q, q <:+ p → q ≠ [] → fs q = false := by
  induction p with
  | nil =>
    intro q hq hne
    exact absurd (List.suffix_nil.mp hq) hne
  | cons d rest ih =>
    intro q hq hne
    by_cases hf : fs (d :: rest) = true
    · rw [locate_root, if_pos hf] at h
      simp at h
    · rw [Bool.not_eq_true] at hf
      rw [locate_root, if_neg (by simp [hf])] at h
      rcases List.suffix_cons_iff.mp hq with rfl | hq'
      · exact hf
      · exact ih h q hq' hne

/-- C1 (amended): the locator checks the ancestors of the start directory
nearest-first and returns the first one containing the manifest, but the walk
stops when it reaches the filesystem root and never examines the root
itself: a hit is a manifest-bearing non-root ancestor with every
nearer-to-start ancestor manifest-free; NotFound is returned exactly on the
chains whose every non-root directory is manifest-free (so a manifest
anywhere strictly below the root is always found, and the result is then the
closest such ancestor); and starting at the root itself always yields
NotFound. -/
theorem locate_root_ancestor_chain (fs : List String → Bool) (p : List String) :
    (∀ r, locate_root fs p = some r →
      r ≠ [] ∧ fs r = true ∧ r <:+ p ∧
        ∀ q, q <:+ p → r <:+ q → q ≠ r → fs q = false) ∧
    (locate_root fs p = none ↔ ∀ q, q <:+ p → q ≠ [] → fs q = false) ∧
    locate_root fs [] = none :=
  ⟨fun r h => locate_root_some fs p r h,
    ⟨fun h => locate_root_none_forward fs p h, fun h => locate_root_none fs p h⟩,
    rfl⟩

/-- Witness for C1 exercising the `some` case: with the manifest exactly at
`/proj`, starting two levels below at `/proj/a/b` the locator walks up and
returns `/proj`, the closest manifest-bearing ancestor. -/
theorem locate_root_ancestor_chain_wit :
    locate_root (fun q => decide (q = ["proj"])) ["b", "a", "proj"]
      = some ["proj"] := by
  decide

/-- C1 counterexample: a manifest sitting at the filesystem root `[]` is
never found. Starting from `/a` (the chain `/a`, `/`) with the manifest
exactly at `/`, the claim demands the locator return the root; the loop's
guard `current_path != current_path.root_path()` stops before the root is
ever examined and the locator reports NotFound. -/
theorem locate_root_misses_root_cex :
    locate_root List.isEmpty ["a"] = none ∧ List.isEmpty ([] : List String) = true := by
  decide

/-! ## Find/extract lemmas -/

lemma findChar_eq_none {c : Char} {l : List Char} (h : c ∉ l) : findChar c l = none := by
  induction l with
  | nil => rfl
  | cons a l ih =>
    simp only [List.mem_cons, not_or] at h
    simp [findChar, Ne.symm h.1, ih h.2]

lemma findChar_cons_self (c : Char) (l : List Char) : findChar c (c :: l) = some 0 := by
  simp [findChar]

lemma findChar_append_of_not_mem {c : Char} {xs : List Char} (ys : List Char)
    (h : c ∉ xs) :
    findChar c (xs ++ ys) = (findChar c ys).map (· + xs.length) := by
  induction xs with
  | nil => simp
  | cons a xs ih =>
    simp only [List.mem_cons, not_or] at h
    cases hy : findChar c ys <;>
      simp [findChar, Ne.symm h.1, ih h.2, hy, Nat.add_assoc]

lemma findChar_eq_some {c : Char} {l : List Char} {i : Nat}
    (h : findChar c l = some i) :
    ∃ a b, l = a ++ c :: b ∧ c ∉ a ∧ i = a.length := by
  induction l generalizing i with
  | nil => simp [findChar] at h
  | cons x l ih =>
    by_cases hx : x = c
    · subst hx
      rw [findChar_cons_self] at h
      exact ⟨[], l, rfl, by simp, by simpa using h.symm⟩
    · rw [findChar, if_neg hx] at h
      cases hy : findChar c l with
      | none => rw [hy] at h; simp at h
      | some j =>
        rw [hy] at h
        simp only [Option.map_some'] at h
        obtain ⟨a, b, rfl, hca, rfl⟩ := ih hy
        refine ⟨x :: a, b, rfl, ?_, by simpa using h.symm⟩
        simp only [List.mem_cons, not_or]
        exact ⟨fun hcx => hx hcx.symm, hca⟩

/-- The quote extraction of lines 81-84 on a line whose first two double
quotes enclose `b`: the result is exactly `b`. -/
lemma quotesExtract_spec (a b c : List Char) (ha : dquote ∉ a) (hb : dquote ∉ b) :
    quotesExtract (a ++ dquote :: (b ++ dquote :: c)) = some b := by
  have hdrop : (a ++ dquote :: (b ++ dquote :: c)).drop (a.length + 1)
      = b ++ dquote :: c := by
    have hsplit : a ++ dquote :: (b ++ dquote :: c)
        = (a ++ [dquote]) ++ (b ++ dquote :: c) := by simp
    rw [hsplit, List.drop_left' (by simp)]
  have h1 : findChar dquote (a ++ dquote :: (b ++ dquote :: c)) = some a.length := by
    rw [findChar_append_of_not_mem _ ha, findChar_cons_self]
    simp
  have h2 : findChar dquote (b ++ dquote :: c) = some b.length := by
    rw [findChar_append_of_not_mem _ hb, findChar_cons_self]
    simp
  simp [quotesExtract, h1, findCharFrom, hdrop, h2, Nat.add_sub_cancel, List.take_left]

lemma findSubstr_of_prefix (pat l : List Char) (h : pat <+: l) :
    findSubstr pat l = some 0 := by
  cases l with
  | nil =>
    have hp : pat = [] := List.prefix_nil.mp h
    simp [findSubstr, hp]
  | cons x l => rw [findSubstr, if_pos (List.isPrefixOf_iff_prefix.mpr h)]

/-- A well-formed name line — the marker followed by a quote-free name and
its closing quote — is accepted by the per-line scan and yields the name. -/
lemma extractLine_good_line (x : List Char) (hx : dquote ∉ x) :
    extractLine ("name = \"".data ++ x ++ [dquote]) = some x := by
  have hm : hasMarker ("name = \"".data ++ x ++ [dquote]) = true := by
    have hpre : marker <+: "name = \"".data ++ x ++ [dquote] := by
      have := List.prefix_append marker (x ++ [dquote])
      rwa [← List.append_assoc] at this
    rw [hasMarker, findSubstr_of_prefix _ _ hpre]
    rfl
  have hshape : "name = \"".data ++ x ++ [dquote]
      = "name = ".data ++ dquote :: (x ++ dquote :: ([] : List Char)) := by
    have h0 : "name = \"".data = "name = ".data ++ [dquote] := by decide
    rw [h0]
    simp
  rw [hshape] at hm ⊢
  simp only [extractLine, hm, if_true]
  exact quotesExtract_spec "name = ".data x [] (by decide) hx

/-! ## Manifest reader theorems -/

/-- C2 counterexample: on the line `"x" name = "foo"` — which contains the
marker pattern — the code's extraction (`line.find('"')` starts at position 0
of the line) returns `x`, while the claimed rule (first and second double
quotes following the marker occurrence) demands `foo`. -/
theorem extractLine_quote_origin_cex :
    hasMarker "\"x\" name = \"foo\"".data = true ∧
    extractLine "\"x\" name = \"foo\"".data = some "x".data ∧
    quotesExtractFromMarker "\"x\" name = \"foo\"".data = some "foo".data ∧
    some "x".data ≠ some "foo".data := by
  decide

/-- C2 (amended): when a line containing the marker pattern is selected, the
returned project name is the substring strictly between the first and second
double-quote characters of the whole line — the search for the quotes starts
at the beginning of the line, not at the marker. -/
theorem extractLine_between_line_quotes (a b c : List Char)
    (hm : hasMarker (a ++ dquote :: (b ++ dquote :: c)) = true)
    (ha : dquote ∉ a) (hb : dquote ∉ b) :
    extractLine (a ++ dquote :: (b ++ dquote :: c)) = some b := by
  simp only [extractLine, hm, if_true]
  exact quotesExtract_spec a b c ha hb

/-- Witness for C2 at the line `name = "foo"`. -/
theorem extractLine_between_line_quotes_wit :
    extractLine ("name = ".data ++ dquote :: ("foo".data ++ dquote :: ([] : List Char)))
      = some "foo".data :=
  extractLine_between_line_quotes "name = ".data "foo".data []
    (by decide) (by decide) (by decide)

/-- C3 counterexample: the empty name breaks the round-trip. Reading the
scaffolded manifest for the name `""` hits the line `name = ""`, extracts the
empty string, and the `project_name.empty()` check of line 90 then reports
the missing-field error instead of returning the empty name. -/
theorem read_project_name_empty_cex :
    read_project_name (manifestLines []) = none := by
  decide

/-- C3 (amended): the round-trip holds for every nonempty quote-free name:
reading the scaffolded manifest whose content contains the line
`name = "x"` yields exactly `x`. -/
theorem read_project_name_roundtrip (x : List Char)
    (hq : dquote ∉ x) (hx : x ≠ []) :
    read_project_name (manifestLines x) = some x := by
  have h1 : extractLine "[project]".data = none := by decide
  have h2 := extractLine_good_line x hq
  obtain ⟨y, ys, rfl⟩ := List.exists_cons_of_ne_nil hx
  simp only [read_project_name, manifestLines, scanLines, h1, h2]
  simp

/-- Witness for C3 at the name `demo`. -/
theorem read_project_name_roundtrip_wit :
    read_project_name (manifestLines "demo".data) = some "demo".data :=
  read_project_name_roundtrip "demo".data (by decide) (by decide)

/-- C4 counterexample: the manifest consisting of the single line `name = "a`
contains the marker pattern, yet the reader still fails: a line containing
the marker does not necessarily win, and the missing-field failure is not
equivalent to the absence of a marker line. -/
theorem read_project_name_marker_not_decisive_cex :
    hasMarker "name = \"a".data = true ∧
    read_project_name ["name = \"a".data] = none := by
  decide

/-- C4 (amended): the manifest is scanned line by line in file order and the
first line on which both the marker test and the two-quote extraction
succeed wins, whatever section it is in — lines after it are never
considered; the reader fails exactly when no line yields an extraction
(no marker or unterminated quotes on every line) or when the winning line's
extracted name is empty. Stated as: the reader equals the first successful
per-line extraction, filtered through the emptiness check, and a head line
with a nonempty extraction decides the result regardless of the tail. -/
theorem read_project_name_scan_order (lines : List (List Char)) :
    read_project_name lines
      = (lines.findSome? extractLine).bind
          (fun s => if s.isEmpty then none else some s) ∧
    ∀ l rest s, extractLine l = some s → s.isEmpty = false →
      read_project_name (l :: rest) = some s := by
  constructor
  · induction lines with
    | nil => rfl
    | cons l rest ih =>
      cases he : extractLine l with
      | some s => simp [read_project_name, scanLines, he, List.findSome?_cons]
      | none => simpa [read_project_name, scanLines, he, List.findSome?_cons] using ih
  · intro l rest s he hse
    simp [read_project_name, scanLines, he, hse]

/-- C10: a line that contains the marker pattern but holds no second double
quote (its only quote is the marker's own, an unterminated value) neither
terminates the scan nor produces an error by itself: the reader's result on
a manifest starting with such a line is the reader's result on the remaining
lines, so a later well-formed name line is still found. -/
theorem read_project_name_skips_unterminated (l : List Char)
    (rest : List (List Char)) (hm : hasMarker l = true)
    (hq : l.count dquote = 1) :
    read_project_name (l :: rest) = read_project_name rest := by
  have hqe : quotesExtract l = none := by
    cases hf : findChar dquote l with
    | none => simp [quotesExtract, hf]
    | some q1 =>
      obtain ⟨a, b, rfl, hca, rfl⟩ := findChar_eq_some hf
      have hb : dquote ∉ b := by
        rw [List.count_append, List.count_cons_self,
          List.count_eq_zero.mpr hca] at hq
        exact List.count_eq_zero.mp (by omega)
      have hdrop : (a ++ dquote :: b).drop (a.length + 1) = b := by
        have hsplit : a ++ dquote :: b = (a ++ [dquote]) ++ b := by simp
        rw [hsplit, List.drop_left' (by simp)]
      simp [quotesExtract, hf, findCharFrom, hdrop, findChar_eq_none hb]
  have hext : extractLine l = none := by
    simp [extractLine, hm, hqe]
  have hscan : scanLines (l :: rest) = scanLines rest := by
    simp [scanLines, hext]
  rw [read_project_name, read_project_name, hscan]

/-- Witness for C10: the unterminated line `name = "a` is skipped and the
well-formed `name = "b"` after it is still found. -/
theorem read_project_name_skips_unterminated_wit :
    read_project_name ["name = \"a".data, "name = \"b\"".data]
      = read_project_name ["name = \"b\"".data] :=
  read_project_name_skips_unterminated "name = \"a".data ["name = \"b\"".data]
    (by decide) (by decide)

/-! ## Build description, artifact path, quoting, toolchain and handler theorems -/

/-- C5: `ensure_build_description` is idempotent and preserves user edits:
an already-present build description file — whatever its content, including
content edited after a previous generation — is returned unchanged and
nothing is written; a second call right after a first leaves the content
present after the first call intact; and after any call the file exists. -/
theorem ensure_build_description_idempotent (st : Option String) (n : String) :
    ensure_build_description (ensure_build_description st n) n
        = ensure_build_description st n ∧
    (∀ c, ensure_build_description (some c) n = some c) ∧
    (ensure_build_description st n).isSome = true := by
  refine ⟨?_, fun c => rfl, ?_⟩ <;> cases st <;> rfl

/-- C6: `get_executable_path` is a pure function of its arguments and equals
the target directory extended with the project name plus the platform
suffix: nothing on non-Windows platforms, `.exe` on the Windows family —
for every nonempty target directory and nonempty project name. -/
theorem get_executable_path_platform (t : List String) (n : String)
    (ht : t ≠ []) (hn : n ≠ "") :
    get_executable_path false t n = t ++ [n] ∧
    get_executable_path true t n = t ++ [n ++ ".exe"] := by
  constructor <;> simp [get_executable_path, EXECUTABLE_EXTENSION]

/-- Witness for C6 at `target/debug` and `foo`. -/
theorem get_executable_path_platform_wit :
    get_executable_path false ["target", "debug"] "foo" = ["target", "debug"] ++ ["foo"] ∧
    get_executable_path true ["target", "debug"] "foo"
      = ["target", "debug"] ++ ["foo" ++ ".exe"] :=
  get_executable_path_platform ["target", "debug"] "foo" (by decide) (by decide)

/-- C7: the toolchain invocation short-circuits. A nonzero configure exit
means the build invocation is never issued and the orchestrator fails with
the empty path; a zero configure exit followed by a nonzero build exit is a
build failure, again with no artifact path resolved; the artifact path is
computed and returned exactly when both invocations exit zero. -/
theorem configure_and_build_short_circuit (w : Bool) (t : List String)
    (n : String) (cfg bld : Int) :
    (cfg ≠ 0 → configure_and_build w t n cfg bld
        = ([Invocation.configure], (EXIT_FAILURE, []))) ∧
    (cfg = 0 → bld ≠ 0 → configure_and_build w t n cfg bld
        = ([Invocation.configure, Invocation.build], (EXIT_FAILURE, []))) ∧
    (cfg = 0 → bld = 0 → configure_and_build w t n cfg bld
        = ([Invocation.configure, Invocation.build],
            (EXIT_SUCCESS, get_executable_path w t n))) := by
  refine ⟨fun h => ?_, fun h1 h2 => ?_, fun h1 h2 => ?_⟩ <;>
    simp [configure_and_build, *]

/-- C8: the artifact-existence policy differs between the two flows. With a
successful orchestrator result carrying a path the filesystem does not hold,
the run flow fails hard with `EXIT_FAILURE`, while the build flow merely
warns (second component `true`) and still exits with `EXIT_SUCCESS`. The
orchestrator itself (`configure_and_build`) takes no existence predicate at
all: it returns the resolved path without checking the filesystem. -/
theorem artifact_existence_policy (p : List String)
    (fsExists : List String → Bool) (runExit : Int)
    (h : fsExists p = false) :
    handle_run_command (EXIT_SUCCESS, p) fsExists runExit = EXIT_FAILURE ∧
    handle_build_command (EXIT_SUCCESS, p) fsExists = (EXIT_SUCCESS, true) := by
  constructor <;>
    simp [handle_run_command, handle_build_command, h]

/-- Witness for C8 at the path `target/debug/demo` on an empty filesystem. -/
theorem artifact_existence_policy_wit :
    handle_run_command (EXIT_SUCCESS, ["target", "debug", "demo"]) (fun _ => false) 0
        = EXIT_FAILURE ∧
    handle_build_command (EXIT_SUCCESS, ["target", "debug", "demo"]) (fun _ => false)
        = (EXIT_SUCCESS, true) :=
  artifact_existence_policy ["target", "debug", "demo"] (fun _ => false) 0 rfl

lemma quote_path_unix_eq_flatMap (s : List Char) :
    quote_path_unix s = s.flatMap fun c => if c = ' ' then ['\\', ' '] else [c] := by
  induction s with
  | nil => rfl
  | cons c rest ih =>
    by_cases hc : c = ' ' <;> simp [quote_path_unix, hc, ih]

lemma quote_path_unix_id (s : List Char) (h : ' ' ∉ s) : quote_path_unix s = s := by
  induction s with
  | nil => rfl
  | cons c rest ih =>
    simp only [List.mem_cons, not_or] at h
    simp [quote_path_unix, Ne.symm h.1, ih h.2]

/-- C9: on Windows `quote_path` wraps the input in one pair of double quotes;
on non-Windows platforms it inserts one backslash before every space
character and changes nothing else — each space becomes backslash-space and
every other character (quotes, dollar signs, semicolons, …) is copied
unescaped — so it is the identity on every path containing no space. -/
theorem quote_path_escaping (s : List Char) :
    quote_path true s = dquote :: s ++ [dquote] ∧
    quote_path false s = (s.flatMap fun c => if c = ' ' then ['\\', ' '] else [c]) ∧
    (' ' ∉ s → quote_path false s = s) :=
  ⟨rfl, quote_path_unix_eq_flatMap s, fun h => quote_path_unix_id s h⟩

end Sail
